import Mathlib

/-!
Shallow embedding of the `go-debug` repository: the TI-COFF decoder
(`src/coff/coff.go`) and the format-dispatching unification layer
(`src/unnamed/part_000`, package `debug`).

Byte sources are modelled as `List Nat` (each element a byte value
0..255).  A `binary.Read` of a fixed-size record from the sequential
reader is modelled as `readChunk`: it succeeds exactly when the record
fits inside the remaining data, mirroring `io.ReadFull` semantics
(`io.EOF` / `io.ErrUnexpectedEOF` otherwise).  Go strings are byte
strings, so resolved names are kept as `List Nat`.
-/

namespace GoDebug

/-- Reads `n` bytes at absolute position `off`; `none` models the EOF error
`binary.Read` returns when fewer than `n` bytes remain. -/
def readChunk (data : List Nat) (off n : Nat) : Option (List Nat) :=
  if off + n ≤ data.length then some ((data.drop off).take n) else none

/-- Little-endian 16-bit value at index `i` of a chunk. -/
def u16at (l : List Nat) (i : Nat) : Nat :=
  l.getD i 0 + 256 * l.getD (i+1) 0

/-- Little-endian 32-bit value at index `i` of a chunk. -/
def u32at (l : List Nat) (i : Nat) : Nat :=
  l.getD i 0 + 256 * l.getD (i+1) 0 + 65536 * l.getD (i+2) 0 +
    16777216 * l.getD (i+3) 0

/-- Little-endian signed 16-bit value at index `i` of a chunk
(two's complement). -/
def i16at (l : List Nat) (i : Nat) : Int :=
  if u16at l i < 32768 then (u16at l i : Int) else (u16at l i : Int) - 65536

/-- The value of `binary.Size` on the Go `FileHeader` struct
(Version u16, NumSections u16, Timestamp u32, SymbolTableStartAddress u32,
NumSymbolTableEntries u32, OptionalFileHeaderSize u16, Flags u16,
TargetID u16). -/
def fileHeaderSize : Nat := 2 + 2 + 4 + 4 + 4 + 2 + 2 + 2

/-- The value of `binary.Size` on the Go `OptionalFileHeader` struct
(MagicNumber u16, Version u16, then six u32 fields). -/
def optFileHeaderSize : Nat := 2 + 2 + 4 + 4 + 4 + 4 + 4 + 4

/-- The value of `binary.Size` on the Go unexported `sectionHeader` struct
(nine u32 fields, one of them split as padding, then two u16 fields). -/
def sectionHeaderBodySize : Nat := 4 + 4 + 4 + 4 + 4 + 4 + 4 + 4 + 4 + 2 + 2

/-- The value of `binary.Size` on the Go unexported `symbol` struct
(Value u32, SectionNumber int16, padding u16, StorageClass u8,
NumAuxEntries u8). -/
def symbolBodySize : Nat := 4 + 2 + 2 + 1 + 1

/-- The value of `binary.Size` on the Go `AuxiliaryEntry` struct
(Size u32, NumRelocationEntries u16, NumOfLineNumberEntries u16,
10 reserved bytes). -/
def auxEntrySize : Nat := 4 + 2 + 2 + 10

/-- COFF file header, from `type FileHeader struct` in coff.go. -/
structure FileHeader where
  Version : Nat
  NumSections : Nat
  Timestamp : Nat
  SymbolTableStartAddress : Nat
  NumSymbolTableEntries : Nat
  OptionalFileHeaderSize : Nat
  Flags : Nat
  TargetID : Nat
deriving Repr, DecidableEq

/-- Field-by-field little-endian decoding of a `fileHeaderSize`-byte chunk,
as `binary.Read(sr, binary.LittleEndian, &file.FileHeader)` performs it. -/
def decodeFileHeader (l : List Nat) : FileHeader :=
  { Version := u16at l 0
    NumSections := u16at l 2
    Timestamp := u32at l 4
    SymbolTableStartAddress := u32at l 8
    NumSymbolTableEntries := u32at l 12
    OptionalFileHeaderSize := u16at l 16
    Flags := u16at l 18
    TargetID := u16at l 20 }

/-- The zero `FileHeader`, the state of `new(File)` before any read. -/
def FileHeader.zero : FileHeader :=
  { Version := 0, NumSections := 0, Timestamp := 0
    SymbolTableStartAddress := 0, NumSymbolTableEntries := 0
    OptionalFileHeaderSize := 0, Flags := 0, TargetID := 0 }

/-- COFF optional file header, from `type OptionalFileHeader struct`. -/
structure OptionalFileHeader where
  MagicNumber : Nat
  Version : Nat
  ExecuteableCodeSize : Nat
  InitializedDataSize : Nat
  UninitializedDataSize : Nat
  EntryPoint : Nat
  BeginAddressExecutableCode : Nat
  BeginAddressInitializedData : Nat
deriving Repr, DecidableEq

/-- The zero `OptionalFileHeader`, the state of `new(OptionalFileHeader)`
before any read. -/
def OptionalFileHeader.zero : OptionalFileHeader :=
  { MagicNumber := 0, Version := 0, ExecuteableCodeSize := 0
    InitializedDataSize := 0, UninitializedDataSize := 0, EntryPoint := 0
    BeginAddressExecutableCode := 0, BeginAddressInitializedData := 0 }

/-- Field-by-field little-endian decoding of an `optFileHeaderSize`-byte
chunk. -/
def decodeOptionalFileHeader (l : List Nat) : OptionalFileHeader :=
  { MagicNumber := u16at l 0
    Version := u16at l 2
    ExecuteableCodeSize := u32at l 4
    InitializedDataSize := u32at l 8
    UninitializedDataSize := u32at l 12
    EntryPoint := u32at l 16
    BeginAddressExecutableCode := u32at l 20
    BeginAddressInitializedData := u32at l 24 }

/-- The keys of `targetIDMap` in coff.go (the seven known TI device
families). -/
def validTargetIDs : List Nat :=
  [0x0097, 0x0098, 0x0099, 0x009C, 0x009D, 0x00A0, 0x00A1]

/-- Embeds `IsValidTargetID`: map membership of the header's target ID. -/
def IsValidTargetID (header : FileHeader) : Bool :=
  validTargetIDs.contains header.TargetID

/-- A decoded section: the resolved name together with the fields copied
from the unexported `sectionHeader` record (the decoder's
`section.SectionHeader` assignment).  The per-section reader view
(`io.SectionReader`) carries no decoded data and is not modelled. -/
structure Section where
  Name : List Nat
  PhysicalAddress : Nat
  VirtualAddress : Nat
  Size : Nat
  RawDataAddress : Nat
  RelocationEntriesAddress : Nat
  NumRelocationEntries : Nat
  Flags : Nat
  MemoryPageNumber : Nat
deriving Repr, DecidableEq

/-- Field-by-field little-endian decoding of a `sectionHeaderBodySize`-byte
chunk (reserved u32 paddings at offsets 20 and 28, u16 padding at 36). -/
def decodeSectionBody (name : List Nat) (l : List Nat) : Section :=
  { Name := name
    PhysicalAddress := u32at l 0
    VirtualAddress := u32at l 4
    Size := u32at l 8
    RawDataAddress := u32at l 12
    RelocationEntriesAddress := u32at l 16
    NumRelocationEntries := u32at l 24
    Flags := u32at l 32
    MemoryPageNumber := u16at l 38 }

/-- Auxiliary symbol-table entry, from `type AuxiliaryEntry struct`. -/
structure AuxiliaryEntry where
  Size : Nat
  NumRelocationEntries : Nat
  NumOfLineNumberEntries : Nat
deriving Repr, DecidableEq

/-- Field-by-field little-endian decoding of an `auxEntrySize`-byte chunk
(10 reserved trailing bytes). -/
def decodeAux (l : List Nat) : AuxiliaryEntry :=
  { Size := u32at l 0
    NumRelocationEntries := u16at l 4
    NumOfLineNumberEntries := u16at l 6 }

/-- Decoded symbol, from `type Symbol struct` in coff.go. -/
structure Symbol where
  Name : List Nat
  Value : Nat
  SectionNumber : Int
  StorageClass : Nat
  NumAuxEntries : Nat
  AuxiliaryEntry : Option AuxiliaryEntry
deriving Repr, DecidableEq

/-- Result of `getString`: a resolved byte string, a returned read error
(`io.EOF` from `ReadBytes` when the string table holds no terminator at or
after the offset), or a Go runtime panic (the slice expression
`stringTable[offset:]` with `offset > len(stringTable)`). -/
inductive GsResult where
  | ok (s : List Nat)
  | error
  | panic
deriving Repr, DecidableEq

/-- Embeds `strings.TrimRight(s, "\x00")`: remove trailing zero bytes. -/
def trimTrailingZeros (l : List Nat) : List Nat :=
  (l.reverse.dropWhile (· = 0)).reverse

/-- Embeds `bufio.Reader.ReadBytes(0x00)` over an in-memory byte list:
returns the bytes up to and including the first zero byte, or `none`
(the `io.EOF` case) when no zero byte occurs. -/
def readBytesUntilZero : List Nat → Option (List Nat)
  | [] => none
  | b :: rest =>
      if b = 0 then some [b] else (readBytesUntilZero rest).map (b :: ·)

/-- Embeds `getString` from coff.go.  The 8-byte raw name field is passed
as a list; within the decoder it always has length 8. -/
def getString (stringTable : List Nat) (name : List Nat) : GsResult :=
  if name.getD 0 0 = 0 ∧ name.getD 1 0 = 0 ∧ name.getD 2 0 = 0 ∧
      name.getD 3 0 = 0 then
    let offset := 16777216 * name.getD 7 0 + 65536 * name.getD 6 0 +
      256 * name.getD 5 0 + name.getD 4 0
    if stringTable.length < offset then GsResult.panic
    else
      match readBytesUntilZero (stringTable.drop offset) with
      | none => GsResult.error
      | some bs => GsResult.ok bs.dropLast
  else
    GsResult.ok (trimTrailingZeros name)

/-- Errors the decoder's read loops can produce: a short read inside
`binary.Read` (`TruncatedData`), or the `io.EOF` error returned by
`getString` on an unterminated string-table reference. -/
inductive ReadErr where
  | truncated
  | stringUnterminated
deriving Repr, DecidableEq

/-- Result of a decoding loop: success, an error together with the entries
decoded before it (the state the partially populated `File` retains), or a
propagated panic from `getString`. -/
inductive ReadResult (α : Type) where
  | ok (a : α)
  | error (sofar : α) (e : ReadErr)
  | panic
deriving Repr, DecidableEq

/-- Section-header loop of `NewFile`: reads `n` section records at `off`,
each an 8-byte raw name field followed by a `sectionHeaderBodySize`-byte
body, resolving each name against the string table. -/
def readSections (data st : List Nat) : Nat → Nat → ReadResult (List Section)
  | _, 0 => ReadResult.ok []
  | off, n+1 =>
    match readChunk data off 8 with
    | none => ReadResult.error [] ReadErr.truncated
    | some chars =>
      match readChunk data (off + 8) sectionHeaderBodySize with
      | none => ReadResult.error [] ReadErr.truncated
      | some body =>
        match getString st chars with
        | GsResult.panic => ReadResult.panic
        | GsResult.error => ReadResult.error [] ReadErr.stringUnterminated
        | GsResult.ok name =>
          match readSections data st (off + 8 + sectionHeaderBodySize) n with
          | ReadResult.ok rest => ReadResult.ok (decodeSectionBody name body :: rest)
          | ReadResult.error sofar e =>
              ReadResult.error (decodeSectionBody name body :: sofar) e
          | ReadResult.panic => ReadResult.panic

/-- Decrement of the loop counter `i` in `NewFile`'s symbol loop: `i` is a
Go `uint32`, so `i--` wraps modulo `2^32` at zero. -/
def dec32 (c : Nat) : Nat := (c + 4294967295) % 4294967296

theorem readChunk_le {data : List Nat} {off n : Nat} {l : List Nat}
    (h : readChunk data off n = some l) : off + n ≤ data.length := by
  by_cases hc : off + n ≤ data.length
  · exact hc
  · simp [readChunk, hc] at h

/-- Result of one iteration of `NewFile`'s symbol loop body: a decoded
symbol together with whether an auxiliary record was also consumed
(`wide`), a returned error, or a propagated panic. -/
inductive SymStep where
  | ok (sym : Symbol) (wide : Bool)
  | error (e : ReadErr)
  | panic
deriving Repr, DecidableEq

/-- One iteration of `NewFile`'s symbol loop at position `off`, in the Go
order: read the 8-byte raw name field, read the `symbolBodySize`-byte
body, resolve the name, and if the body's `NumAuxEntries` byte equals 1
also read the following `auxEntrySize`-byte auxiliary record. -/
def readOneSymbol (data st : List Nat) (off : Nat) : SymStep :=
  match readChunk data off 8 with
  | none => SymStep.error ReadErr.truncated
  | some chars =>
    match readChunk data (off + 8) symbolBodySize with
    | none => SymStep.error ReadErr.truncated
    | some body =>
      match getString st chars with
      | GsResult.panic => SymStep.panic
      | GsResult.error => SymStep.error ReadErr.stringUnterminated
      | GsResult.ok name =>
        if body.getD 9 0 = 1 then
          match readChunk data (off + 8 + symbolBodySize) auxEntrySize with
          | none => SymStep.error ReadErr.truncated
          | some auxBytes =>
              SymStep.ok
                { Name := name
                  Value := u32at body 0
                  SectionNumber := i16at body 4
                  StorageClass := body.getD 8 0
                  NumAuxEntries := body.getD 9 0
                  AuxiliaryEntry := some (decodeAux auxBytes) } true
        else
          SymStep.ok
            { Name := name
              Value := u32at body 0
              SectionNumber := i16at body 4
              StorageClass := body.getD 8 0
              NumAuxEntries := body.getD 9 0
              AuxiliaryEntry := none } false

theorem readOneSymbol_le {data st : List Nat} {off : Nat} {sym : Symbol}
    {w : Bool} (h : readOneSymbol data st off = SymStep.ok sym w) :
    off + 18 ≤ data.length ∧ (w = true → off + 36 ≤ data.length) := by
  unfold readOneSymbol at h
  split at h
  · exact absurd h (by simp)
  · split at h
    · exact absurd h (by simp)
    · rename_i hbody
      have hb := readChunk_le hbody
      split at h
      · exact absurd h (by simp)
      · exact absurd h (by simp)
      · split at h
        · split at h
          · exact absurd h (by simp)
          · rename_i haux
            have ha := readChunk_le haux
            cases h
            constructor
            · simp [symbolBodySize] at hb
              omega
            · intro
              simp [symbolBodySize, auxEntrySize] at ha
              omega
        · cases h
          constructor
          · simp [symbolBodySize] at hb
            omega
          · intro hw
            exact absurd hw (by simp)

/-- Symbol-table loop of `NewFile`: reads symbol records at `off` counting
the `uint32` loop counter down from `c`; a symbol whose `NumAuxEntries`
byte equals 1 also consumes the immediately following auxiliary record and
the counter is decremented once more (wrapping at zero, as the Go counter
is a `uint32`). -/
def readSymbols (data st : List Nat) (off c : Nat) : ReadResult (List Symbol) :=
  match c with
  | 0 => ReadResult.ok []
  | _+1 =>
    match h : readOneSymbol data st off with
    | SymStep.panic => ReadResult.panic
    | SymStep.error e => ReadResult.error [] e
    | SymStep.ok sym wide =>
      match readSymbols data st
          (off + (if wide then 8 + symbolBodySize + auxEntrySize
                  else 8 + symbolBodySize))
          (if wide then dec32 (dec32 c) else dec32 c) with
      | ReadResult.ok rest => ReadResult.ok (sym :: rest)
      | ReadResult.error sofar e => ReadResult.error (sym :: sofar) e
      | ReadResult.panic => ReadResult.panic
termination_by data.length - off
decreasing_by
  have := readOneSymbol_le h
  cases wide <;> simp_all [symbolBodySize, auxEntrySize] <;> omega

/-- Decoded COFF file.  On a mid-decode error the Go code returns the
partially populated `*File`; `sections`/`symbols` then hold the entries
decoded before the failure. -/
structure File where
  header : FileHeader
  optionalHeader : Option OptionalFileHeader
  sections : List Section
  symbols : List Symbol
deriving Repr, DecidableEq

/-- The state of `file = new(File)` before any field is populated. -/
def File.empty : File :=
  { header := FileHeader.zero, optionalHeader := none
    sections := [], symbols := [] }

/-- Errors `coff.NewFile` can return: `ErrInvalidTargetID`, or an error
propagated out of a record read / name resolution. -/
inductive CoffErr where
  | invalidTargetID
  | rerr (e : ReadErr)
deriving Repr, DecidableEq

/-- Outcome of `coff.NewFile`: `(file, nil)`, `(file?, err)` with the
returned (possibly nil) file pointer, or a runtime panic. -/
inductive NfOutcome where
  | ok (f : File)
  | error (f : Option File) (e : CoffErr)
  | panic
deriving Repr, DecidableEq

/-- Embeds `coff.NewFile`.  Decoding order follows the Go code: file
header, target-ID validation, optional header, string table (all bytes
after `SymbolTableStartAddress + NumSymbolTableEntries*18`; `ReadAll` on a
section reader cannot fail), section headers, symbol table. -/
def NewFile (data : List Nat) : NfOutcome :=
  match readChunk data 0 fileHeaderSize with
  | none => NfOutcome.error (some File.empty) (CoffErr.rerr ReadErr.truncated)
  | some hb =>
    let hdr := decodeFileHeader hb
    if IsValidTargetID hdr then
      let afterHeader := fileHeaderSize
      let st := data.drop (hdr.SymbolTableStartAddress + hdr.NumSymbolTableEntries * 18)
      if hdr.OptionalFileHeaderSize > 0 then
        match readChunk data afterHeader optFileHeaderSize with
        | none =>
            NfOutcome.error
              (some { header := hdr, optionalHeader := some OptionalFileHeader.zero,
                      sections := [], symbols := [] })
              (CoffErr.rerr ReadErr.truncated)
        | some ob =>
          let opt := decodeOptionalFileHeader ob
          match readSections data st (afterHeader + optFileHeaderSize) hdr.NumSections with
          | ReadResult.panic => NfOutcome.panic
          | ReadResult.error secs e =>
              NfOutcome.error
                (some { header := hdr, optionalHeader := some opt,
                        sections := secs, symbols := [] })
                (CoffErr.rerr e)
          | ReadResult.ok secs =>
            match readSymbols data st hdr.SymbolTableStartAddress hdr.NumSymbolTableEntries with
            | ReadResult.panic => NfOutcome.panic
            | ReadResult.error syms e =>
                NfOutcome.error
                  (some { header := hdr, optionalHeader := some opt,
                          sections := secs, symbols := syms })
                  (CoffErr.rerr e)
            | ReadResult.ok syms =>
                NfOutcome.ok { header := hdr, optionalHeader := some opt,
                               sections := secs, symbols := syms }
      else
        match readSections data st afterHeader hdr.NumSections with
        | ReadResult.panic => NfOutcome.panic
        | ReadResult.error secs e =>
            NfOutcome.error
              (some { header := hdr, optionalHeader := none,
                      sections := secs, symbols := [] })
              (CoffErr.rerr e)
        | ReadResult.ok secs =>
          match readSymbols data st hdr.SymbolTableStartAddress hdr.NumSymbolTableEntries with
          | ReadResult.panic => NfOutcome.panic
          | ReadResult.error syms e =>
              NfOutcome.error
                (some { header := hdr, optionalHeader := none,
                        sections := secs, symbols := syms })
                (CoffErr.rerr e)
          | ReadResult.ok syms =>
              NfOutcome.ok { header := hdr, optionalHeader := none,
                             sections := secs, symbols := syms }
    else
      NfOutcome.error none CoffErr.invalidTargetID

/-- Number of 18-byte symbol-table slots a decoded symbol list accounts
for: one per primary record plus one per attached auxiliary record. -/
def slotsOf (syms : List Symbol) : Nat :=
  syms.foldr (fun s a => (if s.AuxiliaryEntry.isSome then 2 else 1) + a) 0

/-! Unification layer: package `debug` (src/unnamed/part_000, the revision
with `Symbols` and `ErrorSlice`).  The ELF decoder `debug/elf` is an
external collaborator, so it enters the model as an abstract decoding
function; its observable interface is the decoded sections and the result
of the `Symbols()` method. -/

/-- Observable data of an `elf.Section` used by the adapter: `Name`,
`Addr`, `Size`. -/
structure ElfSection where
  name : List Nat
  addr : Nat
  size : Nat
deriving Repr, DecidableEq

/-- Observable data of an `elf.Symbol` used by the adapter. -/
structure ElfSymbol where
  Name : List Nat
  Value : Nat
  Size : Nat
deriving Repr, DecidableEq

/-- Observable data of a successfully decoded `elf.File`: its sections and
the outcome of its `Symbols()` method (error codes abstracted as `Nat`). -/
structure ElfFile where
  sections : List ElfSection
  symbolsResult : Except Nat (List ElfSymbol)

/-- The `FileType` enumeration of package debug
(`FileTypeUnknown`/`FileTypeELF`/`FileTypeCOFF`). -/
inductive UFileType where
  | unknown
  | elf
  | coff
deriving Repr, DecidableEq

/-- Data exposed by the unified `Section` interface accessors
(`Name()`, `Address()`, `Size()`). -/
structure USection where
  Name : List Nat
  Address : Nat
  Size : Nat
deriving Repr, DecidableEq

/-- The unified `Symbol` record of package debug. -/
structure USymbol where
  Name : List Nat
  Value : Nat
  Size : Nat
deriving Repr, DecidableEq

/-- The unified `File` of package debug. -/
structure UFile where
  FileType : UFileType
  Sections : List USection
  Symbols : List USymbol
deriving Repr, DecidableEq

/-- Adapter `elfSection`: `Name()` is `s.Name`, `Address()` is
`uint64(s.Addr)`, `Size()` is `uint64(s.Size)`. -/
def elfSectionView (s : ElfSection) : USection :=
  { Name := s.name, Address := s.addr, Size := s.size }

/-- Adapter `coffSection`: `Name()` is `s.Name`, `Address()` is
`uint64(s.PhysicalAddress)`, `Size()` is `uint64(s.Size)`. -/
def coffSectionView (s : Section) : USection :=
  { Name := s.Name, Address := s.PhysicalAddress, Size := s.Size }

/-- The unified symbol built from a COFF symbol in `debug.NewFile`:
`Name` and `Value` are copied, and `Size` is set from the auxiliary
entry's `Size` when one is attached (the `make`-initialised zero value
otherwise). -/
def coffSymbolView (s : Symbol) : USymbol :=
  { Name := s.Name
    Value := s.Value
    Size := match s.AuxiliaryEntry with
            | some a => a.Size
            | none => 0 }

/-- The unified symbol built from an ELF symbol in `debug.NewFile`. -/
def elfSymbolView (s : ElfSymbol) : USymbol :=
  { Name := s.Name, Value := s.Value, Size := s.Size }

/-- An element of the `ErrorSlice` built by `debug.NewFile`: the wrapped
ELF failure (`fmt.Errorf("debug/elf: %v", err)`) or the wrapped COFF
failure (`fmt.Errorf("debug/coff: %v", err)`). -/
inductive WrapErr where
  | elfE (e : Nat)
  | coffE (e : CoffErr)
deriving Repr, DecidableEq

/-- Errors `debug.NewFile` can return: the `ErrorSlice` of accumulated
detection failures, or the error of `ef.Symbols()` propagated directly on
the ELF success path. -/
inductive DebugErr where
  | errorSlice (es : List WrapErr)
  | elfSymbolsErr (e : Nat)
deriving Repr, DecidableEq

/-- Outcome of `debug.NewFile`: `(file, nil)`, `(file?, err)`, or a panic
propagated from the COFF decoder. -/
inductive DbgOutcome where
  | ok (f : UFile)
  | error (f : Option UFile) (e : DebugErr)
  | panic
deriving Repr, DecidableEq

/-- Embeds `debug.NewFile`, parameterised over the external ELF decoder
and over the COFF decoder it dispatches to (instantiated with
`coff.NewFile` below): try ELF; on ELF failure append the wrapped ELF
error and try COFF; on COFF failure append the wrapped COFF error and
return the `ErrorSlice`. -/
def debugNewFile (elfDec : List Nat → Except Nat ElfFile)
    (coffDec : List Nat → NfOutcome) (data : List Nat) : DbgOutcome :=
  match elfDec data with
  | Except.ok ef =>
    let secs := ef.sections.map elfSectionView
    match ef.symbolsResult with
    | Except.error e =>
        DbgOutcome.error
          (some { FileType := UFileType.elf, Sections := secs, Symbols := [] })
          (DebugErr.elfSymbolsErr e)
    | Except.ok syms =>
        DbgOutcome.ok
          { FileType := UFileType.elf, Sections := secs,
            Symbols := syms.map elfSymbolView }
  | Except.error e1 =>
    match coffDec data with
    | NfOutcome.ok cf =>
        DbgOutcome.ok
          { FileType := UFileType.coff
            Sections := cf.sections.map coffSectionView
            Symbols := cf.symbols.map coffSymbolView }
    | NfOutcome.error _ e2 =>
        DbgOutcome.error none
          (DebugErr.errorSlice [WrapErr.elfE e1, WrapErr.coffE e2])
    | NfOutcome.panic => DbgOutcome.panic

/-- `debug.NewFile` with the repository's COFF decoder plugged in; only
the external ELF decoder remains abstract. -/
def DebugNewFile (elfDec : List Nat → Except Nat ElfFile)
    (data : List Nat) : DbgOutcome :=
  debugNewFile elfDec NewFile data

/-- Concrete all-zero 22-byte header: its target identifier 0 is not in
the known set. -/
def c1data : List Nat := List.replicate 22 0

/-- Concrete header declaring one section with the byte source ending
immediately after the header, truncating the section record. -/
def c8data : List Nat :=
  [0, 0, 1, 0, 0, 0, 0, 0, 70, 0, 0, 0, 0, 0, 0, 0, 0, 0, 0, 0, 0x97, 0]

/-- Minimal well-formed COFF byte source: a 22-byte header with target
identifier 0x0097, no sections, no symbols, symbol table at offset 22. -/
def c9data : List Nat :=
  [0, 0, 0, 0, 0, 0, 0, 0, 22, 0, 0, 0, 0, 0, 0, 0, 0, 0, 0, 0, 0x97, 0]

def c2hdr : FileHeader :=
  { Version := 0, NumSections := 0, Timestamp := 0
    SymbolTableStartAddress := 22, NumSymbolTableEntries := 3
    OptionalFileHeaderSize := 0, Flags := 0, TargetID := 0x97 }

def c2hb : List Nat :=
  [0, 0, 0, 0, 0, 0, 0, 0, 22, 0, 0, 0, 3, 0, 0, 0, 0, 0, 0, 0, 0x97, 0]

def c2data : List Nat :=
  c2hb ++
  ([65, 0, 0, 0, 0, 0, 0, 0] ++ [7, 0, 0, 0, 1, 0, 0, 0, 2, 1]) ++
  [13, 0, 0, 0, 0, 0, 0, 0, 0, 0, 0, 0, 0, 0, 0, 0, 0, 0] ++
  ([66, 0, 0, 0, 0, 0, 0, 0] ++ [9, 0, 0, 0, 1, 0, 0, 0, 3, 0])

def c2sym1 : Symbol :=
  { Name := [65], Value := 7, SectionNumber := 1, StorageClass := 2
    NumAuxEntries := 1
    AuxiliaryEntry := some { Size := 13, NumRelocationEntries := 0,
                             NumOfLineNumberEntries := 0 } }

def c2sym2 : Symbol :=
  { Name := [66], Value := 9, SectionNumber := 1, StorageClass := 3
    NumAuxEntries := 0, AuxiliaryEntry := none }

def c2file : File :=
  { header := c2hdr, optionalHeader := none, sections := []
    symbols := [c2sym1, c2sym2] }

def bigHeadBytes : List Nat :=
  [0, 0, 0, 0, 0, 0, 0, 0, 22, 0, 0, 0, 1, 0, 0, 0, 0, 0, 0, 0, 0x97, 0]

def bigSym1Bytes : List Nat :=
  [0, 0, 0, 0, 0, 0, 0, 0] ++ [0, 0, 0, 0, 0, 0, 0, 0, 0, 1]

def bigInit : List Nat := bigHeadBytes ++ bigSym1Bytes

def bigZeros : Nat := 18 * 4294967296

def bigData : List Nat := bigInit ++ List.replicate bigZeros 0

def bigST : List Nat := List.replicate bigZeros 0

def zeroSym : Symbol :=
  { Name := [], Value := 0, SectionNumber := 0, StorageClass := 0
    NumAuxEntries := 0, AuxiliaryEntry := none }

def bigSym1 : Symbol :=
  { Name := [], Value := 0, SectionNumber := 0, StorageClass := 0
    NumAuxEntries := 1
    AuxiliaryEntry := some { Size := 0, NumRelocationEntries := 0,
                             NumOfLineNumberEntries := 0 } }

def bigHdr : FileHeader :=
  { Version := 0, NumSections := 0, Timestamp := 0
    SymbolTableStartAddress := 22, NumSymbolTableEntries := 1
    OptionalFileHeaderSize := 0, Flags := 0, TargetID := 0x97 }

def bigFile : File :=
  { header := bigHdr, optionalHeader := none, sections := []
    symbols := bigSym1 :: List.replicate 4294967295 zeroSym }

/-! Helper lemmas and the claim theorems. -/

theorem readBytesUntilZero_of_mem {l : List Nat} (h : 0 ∈ l) :
    readBytesUntilZero l = some (l.takeWhile (· ≠ 0) ++ [0]) := by
  induction l with
  | nil => cases h
  | cons b rest ih =>
    by_cases hb : b = 0
    · subst hb
      simp [readBytesUntilZero, List.takeWhile_cons]
    · have hr : 0 ∈ rest := by
        rcases List.mem_cons.mp h with h1 | h2
        · exact absurd h1.symm hb
        · exact h2
      simp [readBytesUntilZero, hb, ih hr, List.takeWhile_cons]

theorem trimTrailingZeros_pad (l : List Nat) :
    trimTrailingZeros l ++
      List.replicate (l.length - (trimTrailingZeros l).length) 0 = l := by
  unfold trimTrailingZeros
  have hsplit := List.takeWhile_append_dropWhile
    (p := fun x => decide (x = 0)) (l := l.reverse)
  have htw : l.reverse.takeWhile (fun x => decide (x = 0)) =
      List.replicate (l.reverse.takeWhile (fun x => decide (x = 0))).length 0 := by
    apply List.eq_replicate_of_mem
    intro b hb
    simpa using List.mem_takeWhile_imp hb
  have hlen : (l.reverse.takeWhile (fun x => decide (x = 0))).length +
      (l.reverse.dropWhile (fun x => decide (x = 0))).length = l.length := by
    have h2 := congrArg List.length hsplit
    rw [List.length_append, List.length_reverse] at h2
    exact h2
  conv_rhs => rw [← l.reverse_reverse, ← hsplit]
  rw [List.reverse_append, htw, List.reverse_replicate]
  congr 2
  simp
  omega

theorem dropWhile_cons_not {p : Nat → Bool} {l s : List Nat} {a : Nat}
    (he : List.dropWhile p l = a :: s) : p a = false := by
  induction l with
  | nil => simp at he
  | cons b t ih =>
    rw [List.dropWhile_cons] at he
    by_cases hb : p b = true
    · rw [if_pos hb] at he
      exact ih he
    · rw [if_neg hb] at he
      cases he
      simpa using hb

theorem trimTrailingZeros_getLast (l : List Nat) (x : Nat)
    (h : (trimTrailingZeros l).getLast? = some x) : x ≠ 0 := by
  unfold trimTrailingZeros at h
  rcases he : l.reverse.dropWhile (fun x => decide (x = 0)) with _ | ⟨a, s⟩
  · rw [he] at h
    simp at h
  · rw [he] at h
    have hx : x = a := by
      rw [List.getLast?_reverse] at h
      simp at h
      exact h.symm
    subst hx
    have := dropWhile_cons_not he
    simpa using this

/-- Unfolding equation of `readSymbols` at counter zero. -/
theorem readSymbols_zero (data st : List Nat) (off : Nat) :
    readSymbols data st off 0 = ReadResult.ok [] := by
  rw [readSymbols]

/-- Unfolding equation of `readSymbols` at a nonzero counter. -/
theorem readSymbols_succ (data st : List Nat) (off c : Nat) (hc : c ≠ 0) :
    readSymbols data st off c =
      match readOneSymbol data st off with
      | SymStep.panic => ReadResult.panic
      | SymStep.error e => ReadResult.error [] e
      | SymStep.ok sym wide =>
        match readSymbols data st
            (off + (if wide then 8 + symbolBodySize + auxEntrySize
                    else 8 + symbolBodySize))
            (if wide then dec32 (dec32 c) else dec32 c) with
        | ReadResult.ok rest => ReadResult.ok (sym :: rest)
        | ReadResult.error sofar e => ReadResult.error (sym :: sofar) e
        | ReadResult.panic => ReadResult.panic := by
  obtain ⟨n, rfl⟩ := Nat.exists_eq_succ_of_ne_zero hc
  rw [readSymbols]
  cases hh : readOneSymbol data st off <;> simp [hh]

theorem readSymbols_step_nonaux (data st : List Nat) (off c : Nat)
    (hc : c ≠ 0) (sym : Symbol) (rest : List Symbol)
    (hone : readOneSymbol data st off = SymStep.ok sym false)
    (hrec : readSymbols data st (off + (8 + symbolBodySize)) (dec32 c) =
      ReadResult.ok rest) :
    readSymbols data st off c = ReadResult.ok (sym :: rest) := by
  rw [readSymbols_succ _ _ _ _ hc, hone]
  simp only [Bool.false_eq_true, if_false]
  rw [hrec]

theorem readSymbols_step_aux (data st : List Nat) (off c : Nat)
    (hc : c ≠ 0) (sym : Symbol) (rest : List Symbol)
    (hone : readOneSymbol data st off = SymStep.ok sym true)
    (hrec : readSymbols data st (off + (8 + symbolBodySize + auxEntrySize))
      (dec32 (dec32 c)) = ReadResult.ok rest) :
    readSymbols data st off c = ReadResult.ok (sym :: rest) := by
  rw [readSymbols_succ _ _ _ _ hc, hone]
  simp only [if_true]
  rw [hrec]

theorem readOneSymbol_aux_isSome {data st : List Nat} {off : Nat}
    {sym : Symbol} {w : Bool}
    (h : readOneSymbol data st off = SymStep.ok sym w) :
    sym.AuxiliaryEntry.isSome = w := by
  unfold readOneSymbol at h
  split at h
  · exact absurd h (by simp)
  · split at h
    · exact absurd h (by simp)
    · split at h
      · exact absurd h (by simp)
      · exact absurd h (by simp)
      · split at h
        · split at h
          · exact absurd h (by simp)
          · cases h
            rfl
        · cases h
          rfl

theorem slotsOf_cons (s : Symbol) (rest : List Symbol) :
    slotsOf (s :: rest) =
      (if s.AuxiliaryEntry.isSome then 2 else 1) + slotsOf rest := rfl

theorem readSymbols_slots_aux (data st : List Nat) :
    ∀ (k off c : Nat) (syms : List Symbol), data.length + 1 - off ≤ k →
      readSymbols data st off c = ReadResult.ok syms →
      slotsOf syms % 4294967296 = c % 4294967296 := by
  intro k
  induction k with
  | zero =>
    intro off c syms hk h
    cases c with
    | zero =>
      rw [readSymbols_zero] at h
      injection h with hs
      rw [← hs]
      rfl
    | succ n =>
      rw [readSymbols_succ _ _ _ _ (Nat.succ_ne_zero n)] at h
      have hnone : readChunk data off 8 = none := by
        unfold readChunk
        rw [if_neg]
        omega
      unfold readOneSymbol at h
      rw [hnone] at h
      exact absurd h (by simp)
  | succ k ih =>
    intro off c syms hk h
    cases c with
    | zero =>
      rw [readSymbols_zero] at h
      injection h with hs
      rw [← hs]
      rfl
    | succ n =>
      rw [readSymbols_succ _ _ _ _ (Nat.succ_ne_zero n)] at h
      rcases hone : readOneSymbol data st off with ⟨sym, wide⟩ | e | _
      all_goals rw [hone] at h
      all_goals simp only [] at h
      · have hle := readOneSymbol_le hone
        have haux := readOneSymbol_aux_isSome hone
        rcases hrec : readSymbols data st
            (off + (if wide then 8 + symbolBodySize + auxEntrySize
                    else 8 + symbolBodySize))
            (if wide then dec32 (dec32 (n+1)) else dec32 (n+1))
            with rest | ⟨sofar, e⟩ | _
        all_goals rw [hrec] at h
        · injection h with hs
          rw [← hs, slotsOf_cons, haux]
          cases wide with
          | false =>
            have hih := ih (off + (8 + symbolBodySize)) (dec32 (n+1)) rest
              (by simp only [symbolBodySize]; omega)
              (by simpa using hrec)
            simp only [if_false, Bool.false_eq_true]
            simp only [symbolBodySize] at hih
            unfold dec32 at hih
            omega
          | true =>
            have hih := ih (off + (8 + symbolBodySize + auxEntrySize))
              (dec32 (dec32 (n+1))) rest
              (by simp only [symbolBodySize, auxEntrySize]; omega)
              (by simpa using hrec)
            simp only [if_true]
            simp only [symbolBodySize, auxEntrySize] at hih
            unfold dec32 at hih
            omega
        · exact absurd h (by simp)
        · exact absurd h (by simp)
      · exact absurd h (by simp)
      · exact absurd h (by simp)

theorem NewFile_error_shape (data : List Nat) (f : Option File) (e : CoffErr)
    (h : NewFile data = NfOutcome.error f e) :
    (f = none ∧ e = CoffErr.invalidTargetID ∧
      ∃ hb, readChunk data 0 fileHeaderSize = some hb ∧
        IsValidTargetID (decodeFileHeader hb) = false) ∨
    ((∃ g, f = some g) ∧ ∃ re, e = CoffErr.rerr re) := by
  unfold NewFile at h
  rcases hr : readChunk data 0 fileHeaderSize with _ | hb
  all_goals rw [hr] at h
  · simp only at h
    injection h with h1 h2
    subst h1; subst h2
    right
    exact ⟨⟨_, rfl⟩, _, rfl⟩
  · simp only at h
    by_cases hv : IsValidTargetID (decodeFileHeader hb) = true
    · rw [if_pos hv] at h
      by_cases hopt : (decodeFileHeader hb).OptionalFileHeaderSize > 0
      · rw [if_pos hopt] at h
        rcases ho : readChunk data fileHeaderSize optFileHeaderSize with _ | ob
        all_goals rw [ho] at h
        · simp only at h
          injection h with h1 h2
          subst h1; subst h2
          right
          exact ⟨⟨_, rfl⟩, _, rfl⟩
        · simp only at h
          rcases hs : readSections data
              (data.drop ((decodeFileHeader hb).SymbolTableStartAddress +
                (decodeFileHeader hb).NumSymbolTableEntries * 18))
              (fileHeaderSize + optFileHeaderSize)
              (decodeFileHeader hb).NumSections with secs | ⟨secs, se⟩ | _
          all_goals rw [hs] at h
          · simp only at h
            rcases hy : readSymbols data
                (data.drop ((decodeFileHeader hb).SymbolTableStartAddress +
                  (decodeFileHeader hb).NumSymbolTableEntries * 18))
                (decodeFileHeader hb).SymbolTableStartAddress
                (decodeFileHeader hb).NumSymbolTableEntries with syms | ⟨syms, ye⟩ | _
            all_goals rw [hy] at h
            · simp only at h
              cases h
            · simp only at h
              injection h with h1 h2
              subst h1; subst h2
              right
              exact ⟨⟨_, rfl⟩, _, rfl⟩
            · simp only at h
              cases h
          · simp only at h
            injection h with h1 h2
            subst h1; subst h2
            right
            exact ⟨⟨_, rfl⟩, _, rfl⟩
          · simp only at h
            cases h
      · rw [if_neg hopt] at h
        rcases hs : readSections data
            (data.drop ((decodeFileHeader hb).SymbolTableStartAddress +
              (decodeFileHeader hb).NumSymbolTableEntries * 18))
            fileHeaderSize
            (decodeFileHeader hb).NumSections with secs | ⟨secs, se⟩ | _
        all_goals rw [hs] at h
        · simp only at h
          rcases hy : readSymbols data
              (data.drop ((decodeFileHeader hb).SymbolTableStartAddress +
                (decodeFileHeader hb).NumSymbolTableEntries * 18))
              (decodeFileHeader hb).SymbolTableStartAddress
              (decodeFileHeader hb).NumSymbolTableEntries with syms | ⟨syms, ye⟩ | _
          all_goals rw [hy] at h
          · simp only at h
            cases h
          · simp only at h
            injection h with h1 h2
            subst h1; subst h2
            right
            exact ⟨⟨_, rfl⟩, _, rfl⟩
          · simp only at h
            cases h
        · simp only at h
          injection h with h1 h2
          subst h1; subst h2
          right
          exact ⟨⟨_, rfl⟩, _, rfl⟩
        · simp only at h
          cases h
    · rw [if_neg hv] at h
      injection h with h1 h2
      subst h1; subst h2
      left
      have hvf : IsValidTargetID (decodeFileHeader hb) = false := by
        simpa using hv
      exact ⟨rfl, rfl, hb, rfl, hvf⟩

theorem NewFile_ok_shape (data : List Nat) (g : File)
    (h : NewFile data = NfOutcome.ok g) :
    ∃ hb, readChunk data 0 fileHeaderSize = some hb ∧
      g.header = decodeFileHeader hb ∧
      readSymbols data
        (data.drop ((decodeFileHeader hb).SymbolTableStartAddress +
          (decodeFileHeader hb).NumSymbolTableEntries * 18))
        (decodeFileHeader hb).SymbolTableStartAddress
        (decodeFileHeader hb).NumSymbolTableEntries =
        ReadResult.ok g.symbols := by
  unfold NewFile at h
  rcases hr : readChunk data 0 fileHeaderSize with _ | hb
  all_goals rw [hr] at h
  · simp only at h
    cases h
  · simp only at h
    by_cases hv : IsValidTargetID (decodeFileHeader hb) = true
    · rw [if_pos hv] at h
      by_cases hopt : (decodeFileHeader hb).OptionalFileHeaderSize > 0
      · rw [if_pos hopt] at h
        rcases ho : readChunk data fileHeaderSize optFileHeaderSize with _ | ob
        all_goals rw [ho] at h
        · simp only at h
          cases h
        · simp only at h
          rcases hs : readSections data
              (data.drop ((decodeFileHeader hb).SymbolTableStartAddress +
                (decodeFileHeader hb).NumSymbolTableEntries * 18))
              (fileHeaderSize + optFileHeaderSize)
              (decodeFileHeader hb).NumSections with secs | ⟨secs, se⟩ | _
          all_goals rw [hs] at h
          all_goals simp only at h
          · rcases hy : readSymbols data
                (data.drop ((decodeFileHeader hb).SymbolTableStartAddress +
                  (decodeFileHeader hb).NumSymbolTableEntries * 18))
                (decodeFileHeader hb).SymbolTableStartAddress
                (decodeFileHeader hb).NumSymbolTableEntries
                with syms | ⟨syms, ye⟩ | _
            all_goals rw [hy] at h
            all_goals simp only at h
            · injection h with hg
              subst hg
              exact ⟨hb, rfl, rfl, hy⟩
            · cases h
            · cases h
          · cases h
          · cases h
      · rw [if_neg hopt] at h
        rcases hs : readSections data
            (data.drop ((decodeFileHeader hb).SymbolTableStartAddress +
              (decodeFileHeader hb).NumSymbolTableEntries * 18))
            fileHeaderSize
            (decodeFileHeader hb).NumSections with secs | ⟨secs, se⟩ | _
        all_goals rw [hs] at h
        all_goals simp only at h
        · rcases hy : readSymbols data
              (data.drop ((decodeFileHeader hb).SymbolTableStartAddress +
                (decodeFileHeader hb).NumSymbolTableEntries * 18))
              (decodeFileHeader hb).SymbolTableStartAddress
              (decodeFileHeader hb).NumSymbolTableEntries
              with syms | ⟨syms, ye⟩ | _
          all_goals rw [hy] at h
          all_goals simp only at h
          · injection h with hg
            subst hg
            exact ⟨hb, rfl, rfl, hy⟩
          · cases h
          · cases h
        · cases h
        · cases h
    · rw [if_neg hv] at h
      cases h

theorem NewFile_slots (data : List Nat) (g : File)
    (h : NewFile data = NfOutcome.ok g) :
    slotsOf g.symbols % 4294967296 =
      g.header.NumSymbolTableEntries % 4294967296 := by
  obtain ⟨hb, hr, hhdr, hy⟩ := NewFile_ok_shape data g h
  rw [hhdr]
  exact readSymbols_slots_aux data _ (data.length + 1) _ _ _ (by omega) hy

theorem NewFile_eval_ok (data hb st : List Nat) (hdr : FileHeader)
    (secs : List Section) (syms : List Symbol)
    (h1 : readChunk data 0 fileHeaderSize = some hb)
    (h2 : decodeFileHeader hb = hdr)
    (hv : IsValidTargetID hdr = true)
    (hopt : hdr.OptionalFileHeaderSize = 0)
    (hst : data.drop (hdr.SymbolTableStartAddress +
      hdr.NumSymbolTableEntries * 18) = st)
    (hsec : readSections data st fileHeaderSize hdr.NumSections =
      ReadResult.ok secs)
    (hsym : readSymbols data st hdr.SymbolTableStartAddress
      hdr.NumSymbolTableEntries = ReadResult.ok syms) :
    NewFile data = NfOutcome.ok
      { header := hdr, optionalHeader := none, sections := secs,
        symbols := syms } := by
  unfold NewFile
  rw [h1]
  simp only []
  rw [h2, hst]
  rw [if_pos hv]
  rw [hopt]
  rw [if_neg (by omega)]
  rw [hsec]
  simp only []
  rw [hsym]

theorem getD_replicate_zero (K i : Nat) :
    (List.replicate K (0:Nat)).getD i 0 = 0 := by
  rcases Nat.lt_or_ge i K with h | h
  · rw [List.getD_eq_getElem?_getD, List.getElem?_replicate, if_pos h]
    rfl
  · rw [List.getD_eq_getElem?_getD, List.getElem?_replicate, if_neg (by omega)]
    rfl

theorem readBytesUntilZero_replicate (K : Nat) (h : K ≠ 0) :
    readBytesUntilZero (List.replicate K 0) = some [0] := by
  cases K with
  | zero => exact absurd rfl h
  | succ n => simp [List.replicate_succ, readBytesUntilZero]

theorem readChunk_append_low (l1 l2 : List Nat) (off n : Nat)
    (hn : off + n ≤ l1.length) :
    readChunk (l1 ++ l2) off n = readChunk l1 off n := by
  unfold readChunk
  rw [if_pos (by rw [List.length_append]; omega), if_pos hn]
  rw [List.drop_append_of_le_length (by omega),
    List.take_append_of_le_length (by rw [List.length_drop]; omega)]

theorem c9data_ok :
    NewFile c9data =
      NfOutcome.ok
        { header := decodeFileHeader c9data, optionalHeader := none,
          sections := [], symbols := [] } := by
  have h1 : readChunk c9data 0 fileHeaderSize = some c9data := by decide
  unfold NewFile
  rw [h1]
  have hv : IsValidTargetID (decodeFileHeader c9data) = true := by decide
  have hopt : (decodeFileHeader c9data).OptionalFileHeaderSize = 0 := by decide
  have hns : (decodeFileHeader c9data).NumSections = 0 := by decide
  have hne : (decodeFileHeader c9data).NumSymbolTableEntries = 0 := by decide
  simp only [hv, if_true, hopt, gt_iff_lt, Nat.lt_irrefl, if_false, hns, hne,
    readSymbols_zero, readSections]

theorem c2_readSymbols :
    readSymbols c2data [] 22 3 = ReadResult.ok [c2sym1, c2sym2] := by
  have hs1 : readOneSymbol c2data [] 22 = SymStep.ok c2sym1 true := by decide
  have hs2 : readOneSymbol c2data [] 58 = SymStep.ok c2sym2 false := by decide
  have e1 : readSymbols c2data [] 58 1 = ReadResult.ok [c2sym2] := by
    rw [readSymbols_succ _ _ _ _ one_ne_zero, hs2]
    norm_num [symbolBodySize, dec32, readSymbols_zero]
  rw [readSymbols_succ _ _ _ _ (by norm_num), hs1]
  norm_num [symbolBodySize, auxEntrySize, dec32]
  rw [e1]

theorem c2data_ok : NewFile c2data = NfOutcome.ok c2file := by
  have h1 : readChunk c2data 0 fileHeaderSize = some c2hb := by decide
  unfold NewFile
  rw [h1]
  simp only []
  rw [show decodeFileHeader c2hb = c2hdr from by decide]
  have hv : IsValidTargetID c2hdr = true := by decide
  have hst : c2data.drop
      (c2hdr.SymbolTableStartAddress + c2hdr.NumSymbolTableEntries * 18) =
      [] := by decide
  rw [hst]
  simp only [hv, if_true, show c2hdr.OptionalFileHeaderSize = 0 from rfl,
    gt_iff_lt, Nat.lt_irrefl, if_false,
    show c2hdr.NumSections = 0 from rfl, readSections,
    show c2hdr.SymbolTableStartAddress = 22 from rfl,
    show c2hdr.NumSymbolTableEntries = 3 from rfl, c2_readSymbols]
  rfl

theorem bigData_length : bigData.length = 40 + bigZeros := by
  have h1 : bigInit.length = 40 := by decide
  simp [bigData, List.length_append, h1]

theorem bigData_drop40 : bigData.drop 40 = bigST := by
  have h1 : bigInit.length = 40 := by decide
  rw [bigData, ← h1, List.drop_left]
  rfl

theorem bigData_chunk_zeros (off n : Nat) (h40 : 40 ≤ off)
    (hn : off + n ≤ 40 + bigZeros) :
    readChunk bigData off n = some (List.replicate n 0) := by
  unfold readChunk
  rw [if_pos (by rw [bigData_length]; omega)]
  congr 1
  obtain ⟨i, rfl⟩ : ∃ i, off = 40 + i := ⟨off - 40, by omega⟩
  rw [← List.drop_drop, bigData_drop40]
  rw [bigST, List.drop_replicate, List.take_replicate]
  congr 1
  simp only [bigZeros] at hn ⊢
  omega

theorem getString_bigST_zeros :
    getString bigST (List.replicate 8 0) = GsResult.ok [] := by
  unfold getString
  rw [if_pos (by refine ⟨rfl, rfl, rfl, rfl⟩)]
  have hoff : 16777216 * (List.replicate 8 (0:Nat)).getD 7 0 +
      65536 * (List.replicate 8 (0:Nat)).getD 6 0 +
      256 * (List.replicate 8 (0:Nat)).getD 5 0 +
      (List.replicate 8 (0:Nat)).getD 4 0 = 0 := rfl
  rw [hoff, if_neg (by omega)]
  rw [List.drop_zero, bigST, readBytesUntilZero_replicate _ (by norm_num [bigZeros])]
  rfl

theorem readOneSymbol_eval_nonaux (data st : List Nat) (off : Nat)
    (h1 : readChunk data off 8 = some (List.replicate 8 0))
    (h2 : readChunk data (off + 8) symbolBodySize =
      some (List.replicate symbolBodySize 0))
    (hgs : getString st (List.replicate 8 0) = GsResult.ok []) :
    readOneSymbol data st off = SymStep.ok zeroSym false := by
  unfold readOneSymbol
  rw [h1]
  simp only []
  rw [h2]
  simp only []
  rw [hgs]
  simp only []
  rw [if_neg (by decide)]
  rfl

theorem bigData_readOne_zeros (off : Nat) (h40 : 40 ≤ off)
    (hn : off + 18 ≤ 40 + bigZeros) :
    readOneSymbol bigData bigST off = SymStep.ok zeroSym false :=
  readOneSymbol_eval_nonaux bigData bigST off
    (bigData_chunk_zeros off 8 h40 (by omega))
    (bigData_chunk_zeros (off + 8) symbolBodySize (by omega)
      (by simp only [symbolBodySize]; omega))
    getString_bigST_zeros

theorem bigData_readSymbols_zeros :
    ∀ c, c < 4294967296 → ∀ off, 40 ≤ off → off + 18 * c = 40 + bigZeros →
      readSymbols bigData bigST off c =
        ReadResult.ok (List.replicate c zeroSym) := by
  intro c
  induction c with
  | zero =>
    intro _ off _ _
    rw [readSymbols_zero]
    rfl
  | succ n ih =>
    intro hc off h40 hlen
    have hdec : dec32 (n + 1) = n := by
      unfold dec32
      omega
    have hrec : readSymbols bigData bigST (off + (8 + symbolBodySize))
        (dec32 (n + 1)) = ReadResult.ok (List.replicate n zeroSym) := by
      rw [hdec]
      exact ih (by omega) (off + (8 + symbolBodySize)) (by omega)
        (by simp only [symbolBodySize]; omega)
    rw [List.replicate_succ]
    exact readSymbols_step_nonaux bigData bigST off (n + 1)
      (Nat.succ_ne_zero n) zeroSym _
      (bigData_readOne_zeros off h40 (by omega)) hrec

theorem bigData_chunk_low (off n : Nat) (hn : off + n ≤ 40) :
    readChunk bigData off n = readChunk bigInit off n := by
  rw [show bigData = bigInit ++ List.replicate bigZeros 0 from rfl]
  exact readChunk_append_low bigInit _ off n
    (by rw [show bigInit.length = 40 from by decide]; omega)

theorem readOneSymbol_eval_aux (data st : List Nat) (off : Nat)
    (h1 : readChunk data off 8 = some (List.replicate 8 0))
    (h2 : readChunk data (off + 8) symbolBodySize =
      some [0, 0, 0, 0, 0, 0, 0, 0, 0, 1])
    (h3 : readChunk data (off + 8 + symbolBodySize) auxEntrySize =
      some (List.replicate auxEntrySize 0))
    (hgs : getString st (List.replicate 8 0) = GsResult.ok []) :
    readOneSymbol data st off = SymStep.ok bigSym1 true := by
  unfold readOneSymbol
  rw [h1]
  simp only []
  rw [h2]
  simp only []
  rw [hgs]
  simp only []
  rw [if_pos (by decide)]
  rw [h3]
  simp only []
  rfl

theorem bigData_readOne_first :
    readOneSymbol bigData bigST 22 = SymStep.ok bigSym1 true :=
  readOneSymbol_eval_aux bigData bigST 22
    (by rw [bigData_chunk_low 22 8 (by omega)]; decide)
    (by rw [bigData_chunk_low (22 + 8) symbolBodySize
        (by simp only [symbolBodySize]; omega)]
        decide)
    (bigData_chunk_zeros (22 + 8 + symbolBodySize) auxEntrySize
      (by simp only [symbolBodySize]; omega)
      (by simp only [symbolBodySize, auxEntrySize, bigZeros]; omega))
    getString_bigST_zeros

theorem bigData_readSymbols :
    readSymbols bigData bigST 22 1 =
      ReadResult.ok (bigSym1 :: List.replicate 4294967295 zeroSym) := by
  have hrec : readSymbols bigData bigST (22 + (8 + symbolBodySize + auxEntrySize))
      (dec32 (dec32 1)) = ReadResult.ok (List.replicate 4294967295 zeroSym) := by
    rw [show 22 + (8 + symbolBodySize + auxEntrySize) = 58 from by decide,
      show dec32 (dec32 1) = 4294967295 from by unfold dec32; norm_num]
    exact bigData_readSymbols_zeros 4294967295 (by norm_num) 58 (by norm_num)
      (by norm_num [bigZeros])
  exact readSymbols_step_aux bigData bigST 22 1 one_ne_zero bigSym1 _
    bigData_readOne_first hrec

theorem bigData_ok : NewFile bigData = NfOutcome.ok bigFile := by
  have h1 : readChunk bigData 0 fileHeaderSize = some bigHeadBytes := by
    rw [bigData_chunk_low 0 fileHeaderSize (by decide)]
    decide
  have hst : bigData.drop (bigHdr.SymbolTableStartAddress +
      bigHdr.NumSymbolTableEntries * 18) = bigST := by
    rw [show bigHdr.SymbolTableStartAddress + bigHdr.NumSymbolTableEntries * 18
        = 40 from rfl]
    exact bigData_drop40
  exact NewFile_eval_ok bigData bigHeadBytes bigST bigHdr [] _
    h1 (by decide) (by decide) rfl hst rfl bigData_readSymbols

theorem slotsOf_replicate_zeroSym (n : Nat) :
    slotsOf (List.replicate n zeroSym) = n := by
  induction n with
  | zero => rfl
  | succ k ih =>
    rw [List.replicate_succ, slotsOf_cons, ih]
    rw [show zeroSym.AuxiliaryEntry.isSome = false from rfl]
    simp only [Bool.false_eq_true, if_false]
    omega

/-- C1: a decoded file header whose 16-bit target-device identifier is not
one of the seven known values 0x0097, 0x0098, 0x0099, 0x009C, 0x009D,
0x00A0, 0x00A1 makes `NewFile` fail with `ErrInvalidTargetID` (returning a
nil file), regardless of the other header fields; for an identifier in the
set the check passes and decoding proceeds (the outcome is never
`ErrInvalidTargetID`). -/
theorem C1_invalid_target_id_gate (data hb : List Nat)
    (hread : readChunk data 0 fileHeaderSize = some hb) :
    (IsValidTargetID (decodeFileHeader hb) = true ↔
      (decodeFileHeader hb).TargetID ∈
        [0x0097, 0x0098, 0x0099, 0x009C, 0x009D, 0x00A0, 0x00A1])
    ∧ ((decodeFileHeader hb).TargetID ∉
        [0x0097, 0x0098, 0x0099, 0x009C, 0x009D, 0x00A0, 0x00A1] →
        NewFile data = NfOutcome.error none CoffErr.invalidTargetID)
    ∧ ((decodeFileHeader hb).TargetID ∈
        [0x0097, 0x0098, 0x0099, 0x009C, 0x009D, 0x00A0, 0x00A1] →
        ∀ f, NewFile data ≠ NfOutcome.error f CoffErr.invalidTargetID) := by
  have hiff : IsValidTargetID (decodeFileHeader hb) = true ↔
      (decodeFileHeader hb).TargetID ∈
        [0x0097, 0x0098, 0x0099, 0x009C, 0x009D, 0x00A0, 0x00A1] := by
    simp [IsValidTargetID, validTargetIDs]
  refine ⟨hiff, ?_, ?_⟩
  · intro hnot
    have hv : IsValidTargetID (decodeFileHeader hb) = false := by
      rw [← Bool.not_eq_true]
      exact fun hc => hnot (hiff.mp hc)
    unfold NewFile
    rw [hread]
    simp only [hv, Bool.false_eq_true, if_false]
  · intro hmem f hcontra
    have hv : IsValidTargetID (decodeFileHeader hb) = true := hiff.mpr hmem
    rcases NewFile_error_shape data f _ hcontra with ⟨_, _, hb2, hr2, hvf⟩ | ⟨_, re, hre⟩
    · rw [hread] at hr2
      injection hr2 with hbeq
      rw [hbeq] at hv
      rw [hv] at hvf
      cases hvf
    · cases hre

theorem C1_witness :
    NewFile c1data = NfOutcome.error none CoffErr.invalidTargetID :=
  (C1_invalid_target_id_gate c1data c1data (by decide)).2.1 (by decide)

/-- C2 counterexample: the claim's general invariant "total slots consumed
equals the declared entry count" fails.  The loop counter is a Go `uint32`;
when the symbol occupying the final counted slot declares an auxiliary
entry, the two decrements wrap the counter to 2^32 - 1 and the loop keeps
consuming records.  On `bigData` (a header declaring exactly 1 symbol-table
entry whose one symbol declares an auxiliary entry, followed by 2^32
all-zero 18-byte records) decoding succeeds and consumes
2 + (2^32 - 1) = 4294967297 slots, not the declared 1. -/
theorem C2_counterexample :
    NewFile bigData = NfOutcome.ok bigFile
    ∧ bigFile.header.NumSymbolTableEntries = 1
    ∧ slotsOf bigFile.symbols = 4294967297 := by
  refine ⟨bigData_ok, rfl, ?_⟩
  show slotsOf (bigSym1 :: List.replicate 4294967295 zeroSym) = 4294967297
  rw [slotsOf_cons, slotsOf_replicate_zeroSym]
  rfl

/-- C2 (amended): for `NumSymbolTableEntries = 3` with the first symbol
declaring one auxiliary entry, the decoder consumes exactly 3 slots and
produces exactly 2 symbols, the first carrying a non-nil auxiliary entry
that is not listed separately; in general the total slots consumed
(primary plus auxiliary) is congruent to the header's declared entry count
modulo 2^32 — the uint32 loop counter wraps when an auxiliary entry is
declared in the final counted slot, so plain equality can fail (see the
counterexample). -/
theorem C2_symbol_slots :
    (NewFile c2data = NfOutcome.ok c2file
      ∧ c2file.header.NumSymbolTableEntries = 3
      ∧ c2file.symbols = [c2sym1, c2sym2]
      ∧ c2sym1.AuxiliaryEntry.isSome = true
      ∧ c2sym2.AuxiliaryEntry = none
      ∧ slotsOf c2file.symbols = 3)
    ∧ (∀ data st off c syms,
        readSymbols data st off c = ReadResult.ok syms →
        slotsOf syms % 4294967296 = c % 4294967296)
    ∧ (∀ data g, NewFile data = NfOutcome.ok g →
        slotsOf g.symbols % 4294967296 =
          g.header.NumSymbolTableEntries % 4294967296) := by
  refine ⟨⟨c2data_ok, rfl, rfl, rfl, rfl, rfl⟩, ?_, ?_⟩
  · intro data st off c syms h
    exact readSymbols_slots_aux data st (data.length + 1) off c syms
      (by omega) h
  · intro data g h
    exact NewFile_slots data g h

theorem C2_witness :
    slotsOf c2file.symbols % 4294967296 =
      c2file.header.NumSymbolTableEntries % 4294967296 :=
  C2_symbol_slots.2.2 c2data c2file c2data_ok

/-- C3: name resolution over an 8-byte raw name field.  If the first 4
bytes are zero, the remaining 4 encode the offset
byte7*2^24 + byte6*2^16 + byte5*2^8 + byte4 into the string table, and the
result is the null-terminated string found there, terminator excluded
(stated when a terminator exists; out-of-range behaviour is claim C5).
Otherwise the result is the 8 bytes with trailing NUL bytes stripped and
embedded NUL bytes preserved: the result padded back with zero bytes to 8
is the original field and the result never ends in a zero byte. -/
theorem C3_name_resolution (st : List Nat) (b0 b1 b2 b3 b4 b5 b6 b7 : Nat) :
    (b0 = 0 → b1 = 0 → b2 = 0 → b3 = 0 →
      0 ∈ st.drop (16777216 * b7 + 65536 * b6 + 256 * b5 + b4) →
      getString st [b0, b1, b2, b3, b4, b5, b6, b7] =
        GsResult.ok
          ((st.drop (16777216 * b7 + 65536 * b6 + 256 * b5 + b4)).takeWhile
            (· ≠ 0)))
    ∧ (¬ (b0 = 0 ∧ b1 = 0 ∧ b2 = 0 ∧ b3 = 0) →
      getString st [b0, b1, b2, b3, b4, b5, b6, b7] =
        GsResult.ok (trimTrailingZeros [b0, b1, b2, b3, b4, b5, b6, b7])
      ∧ trimTrailingZeros [b0, b1, b2, b3, b4, b5, b6, b7] ++
          List.replicate
            (8 - (trimTrailingZeros [b0, b1, b2, b3, b4, b5, b6, b7]).length) 0 =
          [b0, b1, b2, b3, b4, b5, b6, b7]
      ∧ ∀ x,
          (trimTrailingZeros [b0, b1, b2, b3, b4, b5, b6, b7]).getLast? = some x →
          x ≠ 0) := by
  constructor
  · intro h0 h1 h2 h3 hmem
    subst h0; subst h1; subst h2; subst h3
    have hk : 16777216 * b7 + 65536 * b6 + 256 * b5 + b4 < st.length := by
      by_contra hle
      rw [List.drop_eq_nil_iff_le.mpr (by omega)] at hmem
      cases hmem
    unfold getString
    simp only [List.getD_cons_zero, List.getD_cons_succ, and_self, if_true]
    rw [if_neg (by omega), readBytesUntilZero_of_mem hmem]
    simp [List.dropLast_concat]
  · intro hne
    have hcond : ¬ (([b0, b1, b2, b3, b4, b5, b6, b7].getD 0 0 = 0) ∧
        ([b0, b1, b2, b3, b4, b5, b6, b7].getD 1 0 = 0) ∧
        ([b0, b1, b2, b3, b4, b5, b6, b7].getD 2 0 = 0) ∧
        ([b0, b1, b2, b3, b4, b5, b6, b7].getD 3 0 = 0)) := by
      simpa using hne
    refine ⟨?_, ?_, ?_⟩
    · unfold getString
      rw [if_neg hcond]
    · have := trimTrailingZeros_pad [b0, b1, b2, b3, b4, b5, b6, b7]
      simpa using this
    · intro x hx
      exact trimTrailingZeros_getLast _ x hx

theorem C3_witness :
    getString [97, 98, 99, 0, 5] [0, 0, 0, 0, 0, 0, 0, 0] =
      GsResult.ok [97, 98, 99]
    ∧ getString [] [97, 98, 99, 0, 0, 0, 0, 0] = GsResult.ok [97, 98, 99] := by
  constructor
  · have h := (C3_name_resolution [97, 98, 99, 0, 5] 0 0 0 0 0 0 0 0).1
      rfl rfl rfl rfl (by decide)
    simpa using h
  · have h := ((C3_name_resolution [] 97 98 99 0 0 0 0 0).2 (by decide)).1
    simpa using h

/-- C4 counterexample: the claim fixes the file header at 20 bytes and the
optional header at 24 bytes, but `binary.Size` of the Go structs gives 22
and 28; behaviourally, a 21-byte source fails the header read as truncated
while a 22-byte all-zero source gets past it (failing only the target-ID
check). -/
theorem C4_counterexample :
    fileHeaderSize ≠ 20 ∧ optFileHeaderSize ≠ 24 ∧
    NewFile (List.replicate 21 0) =
      NfOutcome.error (some File.empty) (CoffErr.rerr ReadErr.truncated) ∧
    NewFile (List.replicate 22 0) =
      NfOutcome.error none CoffErr.invalidTargetID := by decide

/-- C4 (amended): the decoder reads a fixed 22-byte file header and a
fixed 28-byte optional header; each symbol is an 8-byte raw name field
plus a 10-byte body (value:4, section-number:2, reserved:2,
storage-class:1, aux-count:1), each auxiliary record is 18 bytes, the
symbol-table stride is 18 bytes per slot, a section record is 8 + 40
bytes, and multi-byte integers are little-endian. -/
theorem C4_layout_constants :
    fileHeaderSize = 22
    ∧ optFileHeaderSize = 28
    ∧ symbolBodySize = 4 + 2 + 2 + 1 + 1
    ∧ 8 + symbolBodySize = 18
    ∧ auxEntrySize = 4 + 2 + 2 + 10
    ∧ auxEntrySize = 18
    ∧ 8 + sectionHeaderBodySize = 48
    ∧ (∀ a b : Nat, u16at [a, b] 0 = a + 256 * b)
    ∧ (∀ a b c d : Nat,
        u32at [a, b, c, d] 0 = a + 256 * b + 65536 * c + 16777216 * d) :=
  ⟨rfl, rfl, rfl, rfl, rfl, rfl, rfl, fun _ _ => rfl, fun _ _ _ _ => rfl⟩

/-- C5: the claim says `getString` fails with an error (never crashes) on
every out-of-range string-table reference.  The code disagrees: with an
empty string table and an encoded offset of 1 (greater than the table
length 0) the Go expression `stringTable[offset:]` panics with a
slice-bounds violation; only an in-range offset whose suffix lacks a NUL
terminator produces a returned error (`io.EOF`).  The decoder's own intent
(a parser returning errors on malformed input, per the spec's
`CorruptStringTable` taxonomy) marks the panic as a code bug. -/
theorem C5_code_bug_eval :
    getString [] [0, 0, 0, 0, 1, 0, 0, 0] = GsResult.panic
    ∧ getString [5] [0, 0, 0, 0, 1, 0, 0, 0] = GsResult.error := by decide

/-- C6: the unified-layer `NewFile` attempts ELF first; when the ELF
decoder succeeds the outcome is independent of the COFF decoder (the COFF
path is never invoked), and on full success the unified file carries
`FileType = ELF` with the adapted ELF sections and symbols. -/
theorem C6_elf_first (elfDec : List Nat → Except Nat ElfFile)
    (coffDec coffDec2 : List Nat → NfOutcome) (data : List Nat) (ef : ElfFile)
    (h : elfDec data = Except.ok ef) :
    debugNewFile elfDec coffDec data = debugNewFile elfDec coffDec2 data
    ∧ ∀ syms, ef.symbolsResult = Except.ok syms →
        debugNewFile elfDec coffDec data =
          DbgOutcome.ok
            { FileType := UFileType.elf
              Sections := ef.sections.map elfSectionView
              Symbols := syms.map elfSymbolView } := by
  constructor
  · unfold debugNewFile
    rw [h]
  · intro syms hs
    unfold debugNewFile
    rw [h]
    simp [hs]

theorem C6_witness :
    debugNewFile (fun _ => Except.ok ⟨[], Except.ok []⟩)
        (fun _ => NfOutcome.panic) [] =
      debugNewFile (fun _ => Except.ok ⟨[], Except.ok []⟩)
        (fun _ => NfOutcome.ok File.empty) []
    ∧ debugNewFile (fun _ => Except.ok ⟨[], Except.ok []⟩)
        (fun _ => NfOutcome.panic) [] =
      DbgOutcome.ok
        { FileType := UFileType.elf, Sections := [], Symbols := [] } := by
  have h := C6_elf_first (fun _ => Except.ok ⟨[], Except.ok []⟩)
    (fun _ => NfOutcome.panic) (fun _ => NfOutcome.ok File.empty) []
    ⟨[], Except.ok []⟩ rfl
  exact ⟨h.1, by simpa using h.2 [] rfl⟩

/-- C7: when the ELF attempt and the COFF attempt both fail, the unified
`NewFile` returns a nil file together with the `ErrorSlice` listing the
wrapped ELF failure first and the wrapped COFF failure second. -/
theorem C7_composite_error (elfDec : List Nat → Except Nat ElfFile)
    (data : List Nat) (e1 : Nat) (f : Option File) (e2 : CoffErr)
    (helf : elfDec data = Except.error e1)
    (hcoff : NewFile data = NfOutcome.error f e2) :
    DebugNewFile elfDec data =
      DbgOutcome.error none
        (DebugErr.errorSlice [WrapErr.elfE e1, WrapErr.coffE e2]) := by
  unfold DebugNewFile debugNewFile
  rw [helf, hcoff]

theorem C7_witness :
    DebugNewFile (fun _ => Except.error 7) [] =
      DbgOutcome.error none
        (DebugErr.errorSlice
          [WrapErr.elfE 7, WrapErr.coffE (CoffErr.rerr ReadErr.truncated)]) :=
  C7_composite_error (fun _ => Except.error 7) [] 7 (some File.empty)
    (CoffErr.rerr ReadErr.truncated) rfl (by decide)

/-- C8: a byte source truncated mid-record makes the COFF decoder fail
with the truncated-read error and never yields a successful decode:
stated for a source shorter than the file header, for a source ending
inside the first section-header record, and for a source ending inside
the first symbol record. -/
theorem C8_truncation (data : List Nat) :
    (data.length < fileHeaderSize →
      NewFile data =
        NfOutcome.error (some File.empty) (CoffErr.rerr ReadErr.truncated))
    ∧ (∀ hb, readChunk data 0 fileHeaderSize = some hb →
        IsValidTargetID (decodeFileHeader hb) = true →
        (decodeFileHeader hb).OptionalFileHeaderSize = 0 →
        (decodeFileHeader hb).NumSections ≠ 0 →
        data.length < fileHeaderSize + 8 + sectionHeaderBodySize →
        NewFile data =
          NfOutcome.error
            (some { header := decodeFileHeader hb, optionalHeader := none,
                    sections := [], symbols := [] })
            (CoffErr.rerr ReadErr.truncated)
        ∧ ∀ g, NewFile data ≠ NfOutcome.ok g)
    ∧ (∀ hb, readChunk data 0 fileHeaderSize = some hb →
        IsValidTargetID (decodeFileHeader hb) = true →
        (decodeFileHeader hb).OptionalFileHeaderSize = 0 →
        (decodeFileHeader hb).NumSections = 0 →
        (decodeFileHeader hb).NumSymbolTableEntries ≠ 0 →
        data.length < (decodeFileHeader hb).SymbolTableStartAddress + 18 →
        NewFile data =
          NfOutcome.error
            (some { header := decodeFileHeader hb, optionalHeader := none,
                    sections := [], symbols := [] })
            (CoffErr.rerr ReadErr.truncated)) := by
  refine ⟨?_, ?_, ?_⟩
  · intro hlen
    have hrc : readChunk data 0 fileHeaderSize = none := by
      unfold readChunk
      rw [if_neg]
      omega
    unfold NewFile
    rw [hrc]
  · intro hb hread hv hopt hns hlen
    obtain ⟨m, hm⟩ := Nat.exists_eq_succ_of_ne_zero hns
    have hsec : readSections data
        (data.drop ((decodeFileHeader hb).SymbolTableStartAddress +
          (decodeFileHeader hb).NumSymbolTableEntries * 18))
        fileHeaderSize (decodeFileHeader hb).NumSections =
        ReadResult.error [] ReadErr.truncated := by
      rw [hm]
      rcases hc : readChunk data fileHeaderSize 8 with _ | chars
      · simp [readSections, hc]
      · have h2 : readChunk data (fileHeaderSize + 8) sectionHeaderBodySize =
            none := by
          unfold readChunk
          rw [if_neg]
          simp only [fileHeaderSize, sectionHeaderBodySize] at hlen ⊢
          omega
        simp [readSections, hc, h2]
    have hmain : NewFile data =
        NfOutcome.error
          (some { header := decodeFileHeader hb, optionalHeader := none,
                  sections := [], symbols := [] })
          (CoffErr.rerr ReadErr.truncated) := by
      unfold NewFile
      rw [hread]
      simp only [hv, if_true, hopt, gt_iff_lt, Nat.lt_irrefl, if_false, hsec]
    exact ⟨hmain, fun g => by rw [hmain]; simp⟩
  · intro hb hread hv hopt hns hne hlen
    have hone : readOneSymbol data
        (data.drop ((decodeFileHeader hb).SymbolTableStartAddress +
          (decodeFileHeader hb).NumSymbolTableEntries * 18))
        (decodeFileHeader hb).SymbolTableStartAddress =
        SymStep.error ReadErr.truncated := by
      unfold readOneSymbol
      rcases hc : readChunk data (decodeFileHeader hb).SymbolTableStartAddress 8
        with _ | chars
      · simp [hc]
      · have h2 : readChunk data
            ((decodeFileHeader hb).SymbolTableStartAddress + 8) symbolBodySize =
            none := by
          unfold readChunk
          rw [if_neg]
          simp only [symbolBodySize] at hlen ⊢
          omega
        simp [hc, h2]
    have hsymb : readSymbols data
        (data.drop ((decodeFileHeader hb).SymbolTableStartAddress +
          (decodeFileHeader hb).NumSymbolTableEntries * 18))
        (decodeFileHeader hb).SymbolTableStartAddress
        (decodeFileHeader hb).NumSymbolTableEntries =
        ReadResult.error [] ReadErr.truncated := by
      rw [readSymbols_succ _ _ _ _ hne, hone]
    unfold NewFile
    rw [hread]
    simp only [hv, if_true, hopt, gt_iff_lt, Nat.lt_irrefl, if_false, hns,
      readSections, hsymb]

theorem C8_witness :
    NewFile c8data =
      NfOutcome.error
        (some { header := decodeFileHeader c8data, optionalHeader := none,
                sections := [], symbols := [] })
        (CoffErr.rerr ReadErr.truncated) :=
  ((C8_truncation c8data).2.1 c8data (by decide) (by decide) (by decide)
    (by decide) (by decide)).1

/-- C9: when the COFF path succeeds, the unified file's symbols are the
COFF symbols mapped through `coffSymbolView`, which copies `Name` and
`Value` and sets `Size` to the auxiliary entry's `Size` when one is
attached and to zero otherwise. -/
theorem C9_symbol_normalisation (elfDec : List Nat → Except Nat ElfFile)
    (data : List Nat) (e1 : Nat) (cf : File)
    (helf : elfDec data = Except.error e1)
    (hcoff : NewFile data = NfOutcome.ok cf) :
    DebugNewFile elfDec data =
      DbgOutcome.ok
        { FileType := UFileType.coff
          Sections := cf.sections.map coffSectionView
          Symbols := cf.symbols.map coffSymbolView }
    ∧ ∀ s : Symbol,
        (coffSymbolView s).Name = s.Name ∧ (coffSymbolView s).Value = s.Value ∧
        (∀ a, s.AuxiliaryEntry = some a → (coffSymbolView s).Size = a.Size) ∧
        (s.AuxiliaryEntry = none → (coffSymbolView s).Size = 0) := by
  constructor
  · unfold DebugNewFile debugNewFile
    rw [helf, hcoff]
  · intro s
    refine ⟨rfl, rfl, ?_, ?_⟩
    · intro a ha
      simp [coffSymbolView, ha]
    · intro ha
      simp [coffSymbolView, ha]

theorem C9_witness :
    DebugNewFile (fun _ => Except.error 3) c9data =
      DbgOutcome.ok
        { FileType := UFileType.coff, Sections := [], Symbols := [] } := by
  have h := C9_symbol_normalisation (fun _ => Except.error 3) c9data 3
    { header := decodeFileHeader c9data, optionalHeader := none,
      sections := [], symbols := [] } rfl c9data_ok
  simpa using h.1

/-- C10: `coff.NewFile` returns a nil file exactly on the invalid-target
failure; every other failure hands back a non-nil, partially populated
file alongside the error. -/
theorem C10_nil_file_iff_invalid_target (data : List Nat) (f : Option File)
    (e : CoffErr) (h : NewFile data = NfOutcome.error f e) :
    f = none ↔ e = CoffErr.invalidTargetID := by
  rcases NewFile_error_shape data f e h with ⟨h1, h2, _⟩ | ⟨⟨g, hg⟩, re, hre⟩
  · subst h1; subst h2
    simp
  · subst hg; subst hre
    simp

theorem C10_witness :
    ((none : Option File) = none ↔
      CoffErr.invalidTargetID = CoffErr.invalidTargetID) :=
  C10_nil_file_iff_invalid_target c1data none CoffErr.invalidTargetID
    (by decide)

end GoDebug
